import Mathlib

/-!
# Verification of the padmiss-daemon API client (`padmiss/api.py`)

A shallow embedding of the data-binding and request-composition layer of
`src/padmiss/api.py`:

* `Val` models the dynamically-typed Python values that flow through the
  client (JSON values, record instances, class objects).
* `FieldSpec` models one entry of a `__fields__` schema: the required
  sentinel `None`, a concrete default value, or a nested-record class.
* `hydrate` models `Base.__init__`: it walks the schema in order, raising
  `TournamentApiError` for a missing required field, substituting defaults,
  and calling `c(**val)` whenever the spec `c` is truthy and the supplied
  value is a dict.
* `getMeta`, `get_player_resolve`, `scoreHistoryLoop` and
  `post_score_payload` model `Player.getMeta`, the response handling of
  `TournamentApi.get_player`, the pagination loop of
  `TournamentApi.get_score_history`, and the payload flattening of
  `TournamentApi.post_score`.
-/

set_option autoImplicit false

namespace Padmiss

/-- A dynamically-typed Python value as used by the client: JSON scalars,
lists, string-keyed dicts, record instances (`Base` subclasses, identified
by class name together with their `__dict__`), and class objects. -/
inductive Val where
  | none : Val
  | bool (b : Bool) : Val
  | int (n : Int) : Val
  | str (s : String) : Val
  | list (xs : List Val) : Val
  | dict (kvs : List (String × Val)) : Val
  | inst (cls : String) (attrs : List (String × Val)) : Val
  | cls (name : String) : Val

/-- Python exceptions raised by the modelled code paths. -/
inductive PyError where
  | missingRequired (field : String)  -- TournamentApiError "Required parameter '%s' missing"
  | typeError                          -- e.g. calling a non-class, or `in` on a non-container
  | keyError (k : String)
  | attributeError (k : String)
  | jsonError                          -- json.JSONDecodeError
deriving DecidableEq

/-- One entry of a `__fields__` schema: `None` (the required sentinel),
a concrete default value, or a nested-record class (carrying its own
`__fields__` schema). -/
inductive FieldSpec where
  | required : FieldSpec
  | default (v : Val) : FieldSpec
  | record (cls : String) (fields : List (String × FieldSpec)) : FieldSpec

/-- Python truthiness of a `Val` (`if c and ...`). -/
def Val.truthy : Val → Bool
  | .none => false
  | .bool b => b
  | .int n => n != 0
  | .str s => !s.isEmpty
  | .list xs => !xs.isEmpty
  | .dict kvs => !kvs.isEmpty
  | .inst _ _ => true
  | .cls _ => true

/-- Python `v is None`. -/
def Val.isNone : Val → Bool
  | .none => true
  | _ => false

/-- Python `isinstance(v, dict)`. -/
def Val.isDict : Val → Bool
  | .dict _ => true
  | _ => false

/-- Python truthiness of a schema entry `c`: the required sentinel is
`None` (falsy), a default value has its own truthiness, and a class
object is always truthy. -/
def FieldSpec.truthy : FieldSpec → Bool
  | .required => false
  | .default v => v.truthy
  | .record _ _ => true

/-- First-match lookup in a string-keyed association list (Python
`kwargs[k]` / `k in kwargs`; Python dicts have unique keys). -/
def lookupKw (kvs : List (String × Val)) (k : String) : Option Val :=
  match kvs with
  | [] => Option.none
  | (k', v) :: rest => if k' = k then some v else lookupKw rest k

mutual

/-- One iteration of the loop in `Base.__init__` (api.py lines 15-24),
computing the value assigned to schema field `k` with spec `c`, given
`mv = kwargs[k] if k in kwargs else absent`: for a field absent from the
input, raise `TournamentApiError` if its spec is `None`, else use the
spec itself as the value (for a nested-record spec this is the class
object); then, if the spec is truthy and the value is a dict, call the
spec on the dict (`val = c(**val)`) — recursive construction for a class
spec, a `TypeError` for a non-callable truthy default. -/
def hydrateOne (k : String) (c : FieldSpec) (mv : Option Val) :
    Except PyError Val :=
  let step : Except PyError Val :=
    match mv with
    | Option.none =>
      match c with
      | .required => .error (.missingRequired k)
      | .default v => .ok v
      | .record n _ => .ok (.cls n)
    | some v => .ok v
  match step with
  | .error e => .error e
  | .ok v =>
    match v with
    | .dict d =>
      match c.truthy with
      | true =>
        match c with
        | .record n fs => (hydrate fs d).map (Val.inst n)
        | _ => .error .typeError
      | false => .ok (.dict d)
    | _ => .ok v

/-- Model of `Base.__init__` (api.py lines 14-25): walk the schema in order,
computing each field's value with `hydrateOne` from its presence in the
input and collecting the `setattr` assignments (the instance `__dict__`,
in schema order); the first raised exception aborts construction. -/
def hydrate (fields : List (String × FieldSpec)) (kwargs : List (String × Val)) :
    Except PyError (List (String × Val)) :=
  match fields with
  | [] => .ok []
  | (k, c) :: rest =>
    match hydrateOne k c (lookupKw kwargs k) with
    | .error e => .error e
    | .ok v2 =>
      match hydrate rest kwargs with
      | .error e => .error e
      | .ok attrs => .ok ((k, v2) :: attrs)

end

/-- Schema `Player.__fields__`. -/
def playerFields : List (String × FieldSpec) :=
  [("nickname", .required),
   ("shortNickname", .default (.str "")),
   ("avatarIconUrl", .default (.str "")),
   ("rfidUid", .default (.str "")),
   ("_id", .required),
   ("metaData", .default (.str "\x7b\x7d")),
   ("mountType", .default (.bool false))]

/-- Schema `ScoreBreakdown.__fields__`. -/
def scoreBreakdownFields : List (String × FieldSpec) :=
  [("fantastics", .required), ("excellents", .required), ("greats", .required),
   ("decents", .required), ("wayoffs", .required), ("misses", .required),
   ("holds", .required), ("holdsTotal", .required), ("minesHit", .required),
   ("minesAvoided", .required), ("minesTotal", .required), ("rolls", .required),
   ("rollsTotal", .required), ("jumps", .required), ("jumpsTotal", .required),
   ("hands", .required), ("handsTotal", .required)]

/-- Schema `Score.__fields__`. -/
def scoreFields : List (String × FieldSpec) :=
  [("scoreBreakdown", .record "ScoreBreakdown" scoreBreakdownFields),
   ("scoreValue", .required), ("passed", .required), ("secondsSurvived", .required)]

/-- Schema `Song.__fields__`. -/
def songFields : List (String × FieldSpec) :=
  [("title", .required), ("titleTransliteration", .required),
   ("subTitle", .required), ("subTitleTransliteration", .required),
   ("artist", .required), ("artistTransliteration", .required),
   ("durationSeconds", .required)]

/-- Schema `TimingWindows.__fields__`. -/
def timingWindowsFields : List (String × FieldSpec) :=
  [("fantasticTimingWindow", .required), ("excellentTimingWindow", .required),
   ("greatTimingWindow", .required), ("decentTimingWindow", .required),
   ("wayoffTimingWindow", .required), ("mineTimingWindow", .required),
   ("holdTimingWindow", .required), ("rollTimingWindow", .required)]

/-- Schema `ChartUpload.__fields__`. -/
def chartUploadFields : List (String × FieldSpec) :=
  [("hash", .required), ("meter", .required), ("playMode", .required),
   ("stepData", .required), ("stepArtist", .required),
   ("song", .record "Song" songFields),
   ("score", .record "Score" scoreFields),
   ("group", .required), ("cabSide", .required), ("speedMod", .required),
   ("musicRate", .required), ("modsTurn", .required),
   ("modsTransform", .required), ("modsOther", .required),
   ("noteSkin", .required), ("perspective", .required),
   ("timingWindows", .record "TimingWindows" timingWindowsFields),
   ("inputEvents", .default (.list [])),
   ("noteScoresWithBeats", .default (.list []))]

/-- Schema `InputEvent.__fields__`. -/
def inputEventFields : List (String × FieldSpec) :=
  [("beat", .required), ("column", .required), ("released", .required)]

/-- Schema `NoteScore.__fields__`. -/
def noteScoreFields : List (String × FieldSpec) :=
  [("beat", .required), ("column", .required), ("holdNoteScore", .required),
   ("tapNoteScore", .required), ("offset", .required)]

section JsonModel

/-- Left brace character (code 123). -/
def lbrace : Char := Char.ofNat 123

/-- Right brace character (code 125). -/
def rbrace : Char := Char.ofNat 125

/-- Skip JSON whitespace. -/
def skipWs : List Char → List Char
  | [] => []
  | c :: cs => if c = ' ' ∨ c = '\t' ∨ c = '\n' ∨ c = '\r' then skipWs cs else c :: cs

/-- Read the remainder of a double-quoted string literal (no escapes). -/
def parseStrAux : List Char → String → Option (String × List Char)
  | [], _ => Option.none
  | c :: cs, acc => if c = '\"' then some (acc, cs) else parseStrAux cs (acc.push c)

/-- Read a double-quoted string literal (no escapes). -/
def parseStrLit : List Char → Option (String × List Char)
  | [] => Option.none
  | c :: cs => if c = '\"' then parseStrAux cs "" else Option.none

/-- Read a run of decimal digits. -/
def parseDigits : List Char → Nat → Bool → Option (Nat × List Char)
  | [], acc, seen => if seen then some (acc, []) else Option.none
  | c :: cs, acc, seen =>
    if c.isDigit then parseDigits cs (acc * 10 + (c.toNat - '0'.toNat)) true
    else if seen then some (acc, c :: cs) else Option.none

/-- Read a primitive JSON value: `null`, `true`, `false`, an integer, or
a string literal. -/
def parsePrim (cs : List Char) : Option (Val × List Char) :=
  match skipWs cs with
  | 'n' :: 'u' :: 'l' :: 'l' :: r => some (.none, r)
  | 't' :: 'r' :: 'u' :: 'e' :: r => some (.bool true, r)
  | 'f' :: 'a' :: 'l' :: 's' :: 'e' :: r => some (.bool false, r)
  | '-' :: r =>
    match parseDigits r 0 false with
    | some (n, r') => some (.int (-(n : Int)), r')
    | Option.none => Option.none
  | c :: r =>
    if c = '\"' then
      match parseStrAux r "" with
      | some (s, r') => some (.str s, r')
      | Option.none => Option.none
    else
      match parseDigits (c :: r) 0 false with
      | some (n, r') => some (.int (n : Int), r')
      | Option.none => Option.none
  | [] => Option.none

/-- Read the members of a JSON object after the opening brace (fueled;
the fuel is at least the number of characters, so it never runs out on
an input the grammar accepts). -/
def parseMembers : Nat → List Char → List (String × Val) →
    Option (List (String × Val) × List Char)
  | 0, _, _ => Option.none
  | fuel + 1, cs, acc =>
    match parseStrLit (skipWs cs) with
    | Option.none => Option.none
    | some (k, r1) =>
      match skipWs r1 with
      | ':' :: r2 =>
        match parsePrim r2 with
        | Option.none => Option.none
        | some (v, r3) =>
          match skipWs r3 with
          | ',' :: r4 => parseMembers fuel r4 (acc ++ [(k, v)])
          | c :: r4 =>
            if c = rbrace then some (acc ++ [(k, v)], r4) else Option.none
          | [] => Option.none
      | _ => Option.none

/-- Model of the external `json.loads` (Python standard library),
restricted to the fragment `metaData` is documented to hold: a flat JSON
object with string keys and primitive values (`null`, booleans,
integers, escape-free strings). A string outside this fragment is a
parse failure (Python raises `json.JSONDecodeError` on invalid JSON). -/
def jsonLoads (s : String) : Option (List (String × Val)) :=
  match skipWs s.toList with
  | c :: cs =>
    if c = lbrace then
      match skipWs cs with
      | d :: ds =>
        if d = rbrace then
          if skipWs ds = [] then some [] else Option.none
        else
          match parseMembers (cs.length + 1) cs [] with
          | some (m, r) => if skipWs r = [] then some m else Option.none
          | Option.none => Option.none
      | [] => Option.none
    else Option.none
  | [] => Option.none

end JsonModel

/-- Model of `Player.getMeta` (api.py lines 49-57): return `None` if `metaData`
equals `None`; otherwise parse it with `json.loads` (raising on anything
that does not parse) and return the named key if present, else `None`.
A non-string `metaData` makes `json.loads` raise a `TypeError`. -/
def getMeta (metaData : Val) (field : String) : Except PyError Val :=
  if metaData.isNone then .ok .none
  else
    match metaData with
    | .str s =>
      match jsonLoads s with
      | Option.none => .error .jsonError
      | some d =>
        match lookupKw d field with
        | some v => .ok v
        | Option.none => .ok .none
    | _ => .error .typeError

/-- Response handling of `TournamentApi.get_player` (api.py lines
257-264), applied to the parsed JSON of the query result (a string-keyed
object, as `json.loads` produces for a GraphQL response): return `None`
when the response has no `data` key, when `data['data']['Players']` is
falsy, or when the number of returned documents differs from one;
otherwise hydrate the single document into a `Player`.  Malformed
responses raise (`KeyError` for a missing key, `TypeError` for subscript
or `len` on a value of the wrong shape), exactly as the Python would. -/
def get_player_resolve (resp : List (String × Val)) : Except PyError (Option Val) :=
  match lookupKw resp "data" with
  | Option.none => .ok Option.none
  | some d =>
    match d with
    | .dict dd =>
      match lookupKw dd "Players" with
      | Option.none => .error (.keyError "Players")
      | some players =>
        if !players.truthy then .ok Option.none
        else
          match players with
          | .dict pd =>
            match lookupKw pd "docs" with
            | Option.none => .error (.keyError "docs")
            | some docs =>
              match docs with
              | .list l =>
                if l.length ≠ 1 then .ok Option.none
                else
                  match l with
                  | [.dict doc] =>
                    (hydrate playerFields doc).map (fun a => some (.inst "Player" a))
                  | [_] => .error .typeError
                  | _ => .ok Option.none
              | .dict dl =>
                if dl.length ≠ 1 then .ok Option.none else .error (.keyError "0")
              | .str s =>
                if s.length ≠ 1 then .ok Option.none else .error .typeError
              | _ => .error .typeError
          | _ => .error .typeError
    | _ => .error .typeError

/-- The pagination loop of `TournamentApi.get_score_history` (api.py
lines 302-340), abstracted over the backend: `backend o` is the page of
documents the score query returns at offset `o` (the empty list also
covers a response with no `data`).  Starting from the current `offset`,
fetch a page; an empty page sets `left = 0`; a non-empty page appends
its documents and advances `offset` by 10; the loop exits when `left ==
0` or `offset > 100`.  Returns the accumulated documents and the list of
offsets actually fetched. -/
def scoreHistoryLoop (backend : Nat → List Nat) (offset : Nat) :
    List Nat × List Nat :=
  if (backend offset).isEmpty then ([], [offset])
  else if offset + 10 > 100 then (backend offset, [offset])
  else
    (backend offset ++ (scoreHistoryLoop backend (offset + 10)).1,
     offset :: (scoreHistoryLoop backend (offset + 10)).2)
termination_by 101 - offset
decreasing_by all_goals omega

/-- A mocked backend holding exactly 35 matching documents (numbered
`0..34`), served in pages of at most 10 from the requested offset. -/
def backend35 (o : Nat) : List Nat := ((List.range 35).drop o).take 10

section PostScore

/-- Attribute access `v.k`: defined on instances, raising
`AttributeError` otherwise (in particular on a class object left in
place of a never-supplied nested-record field). -/
def getAttr (v : Val) (k : String) : Except PyError Val :=
  match v with
  | .inst _ attrs =>
    match lookupKw attrs k with
    | some x => .ok x
    | Option.none => .error (.attributeError k)
  | _ => .error (.attributeError k)

/-- Python `v.__dict__` of a record instance. -/
def instDict : Val → Except PyError (List (String × Val))
  | .inst _ attrs => .ok attrs
  | _ => .error (.attributeError "__dict__")

/-- Iterating a value with `map` (`TypeError` on a non-list). -/
def asList : Val → Except PyError (List Val)
  | .list xs => .ok xs
  | _ => .error .typeError

/-- The classes deriving `FlattenedBase` (api.py lines 34-100). -/
def flattenedBaseClasses : List String :=
  ["Player", "ScoreBreakdown", "Score", "Song"]

/-- The classes deriving `Base` (api.py lines 11-155). -/
def baseClasses : List String :=
  ["Player", "ScoreBreakdown", "Score", "Song", "TimingWindows",
   "ChartUpload", "InputEvent", "NoteScore"]

/-- Python `isinstance(v, FlattenedBase)`. -/
def isFlattenedBase : Val → Bool
  | .inst c _ => flattenedBaseClasses.contains c
  | _ => false

/-- The helper `dumpable = lambda v: v.__dict__ if isinstance(v, Base) else v`
(api.py line 388). -/
def dumpable : Val → Val
  | .inst c attrs => if baseClasses.contains c then .dict attrs else .inst c attrs
  | v => v

/-- Python `dict.update` with a single key: an existing key keeps its
position and gets the new value, a new key is appended. -/
def updateAssoc (m : List (String × Val)) (k : String) (v : Val) :
    List (String × Val) :=
  if m.any (fun kv => kv.1 == k) then
    m.map (fun kv => if kv.1 == k then (k, v) else kv)
  else m ++ [(k, v)]

/-- Python `dict.update` with another dict. -/
def updateAll (m : List (String × Val)) (kvs : List (String × Val)) :
    List (String × Val) :=
  kvs.foldl (fun acc kv => updateAssoc acc kv.1 kv.2) m

/-- The final wire payload (api.py line 389): keep the entries whose
value `is not None`, and send instances as their `__dict__`. -/
def finalize (data : List (String × Val)) : List (String × Val) :=
  (data.filter (fun kv => !kv.2.isNone)).map (fun kv => (kv.1, dumpable kv.2))

/-- The payload flattening of `TournamentApi.post_score` (api.py lines
371-389): start from the fixed entries (API key, player id, score value,
passed flag, seconds survived, group); `update` with the score
breakdown's `__dict__`, then the song's `__dict__`, then every upload
attribute whose value is not a `FlattenedBase` instance; overwrite
`inputEvents` and `noteScoresWithBeats` with the element `__dict__`s;
finally drop `None`-valued entries and send instances as dicts.  Errors
model the exceptions the attribute accesses would raise. -/
def post_score_payload (apiKey : Val) (player upload : Val) :
    Except PyError (List (String × Val)) := do
  let pid ← getAttr player "_id"
  let score ← getAttr upload "score"
  let scoreValue ← getAttr score "scoreValue"
  let passed ← getAttr score "passed"
  let secondsSurvived ← getAttr score "secondsSurvived"
  let group ← getAttr upload "group"
  let breakdown ← getAttr score "scoreBreakdown"
  let bd ← instDict breakdown
  let song ← getAttr upload "song"
  let sd ← instDict song
  let ud ← instDict upload
  let ie ← getAttr upload "inputEvents"
  let ieL ← asList ie
  let ieD ← ieL.mapM instDict
  let ns ← getAttr upload "noteScoresWithBeats"
  let nsL ← asList ns
  let nsD ← nsL.mapM instDict
  let data0 : List (String × Val) :=
    [("apiKey", apiKey), ("playerId", pid), ("scoreValue", scoreValue),
     ("passed", passed), ("secondsSurvived", secondsSurvived), ("group", group)]
  let data1 := updateAll data0 bd
  let data2 := updateAll data1 sd
  let data3 := updateAll data2 (ud.filter (fun kv => !isFlattenedBase kv.2))
  let data4 := updateAssoc data3 "inputEvents" (.list (ieD.map Val.dict))
  let data5 := updateAssoc data4 "noteScoresWithBeats" (.list (nsD.map Val.dict))
  pure (finalize data5)

end PostScore

/-- The keys of a payload, in order. -/
def keysOf (m : List (String × Val)) : List String := m.map Prod.fst

/-- A fully populated `ScoreBreakdown.__dict__`, one value per schema field. -/
def bdAttrsFull (vals : String → Val) : List (String × Val) :=
  scoreBreakdownFields.map (fun kc => (kc.1, vals kc.1))

/-- A fully populated `Song.__dict__`, one value per schema field. -/
def songAttrsFull (vals : String → Val) : List (String × Val) :=
  songFields.map (fun kc => (kc.1, vals kc.1))

/-- A fully populated `TimingWindows.__dict__`, one value per schema field. -/
def twAttrsFull (vals : String → Val) : List (String × Val) :=
  timingWindowsFields.map (fun kc => (kc.1, vals kc.1))

/-- A fully populated `Player.__dict__`, one value per schema field. -/
def playerAttrsFull (vals : String → Val) : List (String × Val) :=
  playerFields.map (fun kc => (kc.1, vals kc.1))

/-- A fully populated `Score.__dict__` whose breakdown is a nested instance. -/
def scoreAttrsFull (vals : String → Val) : List (String × Val) :=
  [("scoreBreakdown", .inst "ScoreBreakdown" (bdAttrsFull vals)),
   ("scoreValue", vals "scoreValue"), ("passed", vals "passed"),
   ("secondsSurvived", vals "secondsSurvived")]

/-- A fully populated `ChartUpload.__dict__` with nested `Song`, `Score` and
`TimingWindows` instances and empty event lists. -/
def uploadAttrsFull (vals : String → Val) : List (String × Val) :=
  [("hash", vals "hash"), ("meter", vals "meter"), ("playMode", vals "playMode"),
   ("stepData", vals "stepData"), ("stepArtist", vals "stepArtist"),
   ("song", .inst "Song" (songAttrsFull vals)),
   ("score", .inst "Score" (scoreAttrsFull vals)),
   ("group", vals "group"), ("cabSide", vals "cabSide"),
   ("speedMod", vals "speedMod"), ("musicRate", vals "musicRate"),
   ("modsTurn", vals "modsTurn"), ("modsTransform", vals "modsTransform"),
   ("modsOther", vals "modsOther"), ("noteSkin", vals "noteSkin"),
   ("perspective", vals "perspective"),
   ("timingWindows", .inst "TimingWindows" (twAttrsFull vals)),
   ("inputEvents", .list []), ("noteScoresWithBeats", .list [])]

/-- The top-level key list `post_score` actually produces for a fully
populated upload: the fixed entries, the breakdown fields, the song
fields, and every upload attribute that is not a `FlattenedBase`
instance — `song` and `score` excluded, `timingWindows` (whose class
derives `Base` but not `FlattenedBase`) included. -/
def amendedKeysList : List String :=
  ["apiKey", "playerId", "scoreValue", "passed", "secondsSurvived", "group",
   "fantastics", "excellents", "greats", "decents", "wayoffs", "misses",
   "holds", "holdsTotal", "minesHit", "minesAvoided", "minesTotal", "rolls",
   "rollsTotal", "jumps", "jumpsTotal", "hands", "handsTotal",
   "title", "titleTransliteration", "subTitle", "subTitleTransliteration",
   "artist", "artistTransliteration", "durationSeconds",
   "hash", "meter", "playMode", "stepData", "stepArtist", "cabSide",
   "speedMod", "musicRate", "modsTurn", "modsTransform", "modsOther",
   "noteSkin", "perspective", "timingWindows", "inputEvents",
   "noteScoresWithBeats"]

/-- A `Score` input supplying every required field but an empty mapping
for `scoreBreakdown`. -/
def c1Kw : List (String × Val) :=
  [("scoreBreakdown", .dict []), ("scoreValue", .int 100),
   ("passed", .bool true), ("secondsSurvived", .int 60)]

/-- A single well-formed player document. -/
def c9Doc : List (String × Val) := [("nickname", .str "n"), ("_id", .str "i")]

/-- A query response with exactly one matching document. -/
def c9Resp : List (String × Val) :=
  [("data", .dict [("Players", .dict [("docs", .list [.dict c9Doc])])])]

/-- A query response with two matching documents. -/
def c9RespTwo : List (String × Val) :=
  [("data", .dict [("Players", .dict [("docs", .list [.dict c9Doc, .dict c9Doc])])])]

/-- A fully populated `ScoreBreakdown` input mapping. -/
def bdKwInts : List (String × Val) :=
  [("fantastics", .int 1), ("excellents", .int 2), ("greats", .int 3),
   ("decents", .int 4), ("wayoffs", .int 5), ("misses", .int 6),
   ("holds", .int 7), ("holdsTotal", .int 8), ("minesHit", .int 9),
   ("minesAvoided", .int 10), ("minesTotal", .int 11), ("rolls", .int 12),
   ("rollsTotal", .int 13), ("jumps", .int 14), ("jumpsTotal", .int 15),
   ("hands", .int 16), ("handsTotal", .int 17)]

/-- A `Score` input whose `scoreBreakdown` is supplied as a raw mapping. -/
def c2ScoreKw : List (String × Val) :=
  [("scoreBreakdown", .dict bdKwInts), ("scoreValue", .int 100),
   ("passed", .bool true), ("secondsSurvived", .int 60)]

/-- The attributes of the `Score` built from `c2ScoreKw`. -/
def c2ScoreAttrs : List (String × Val) :=
  (hydrate scoreFields c2ScoreKw).toOption.getD []

/-- A `Score` input whose `scoreBreakdown` is an already-constructed
instance. -/
def c2ScoreKwInst : List (String × Val) :=
  [("scoreBreakdown", .inst "ScoreBreakdown" bdKwInts), ("scoreValue", .int 100),
   ("passed", .bool true), ("secondsSurvived", .int 60)]

/-- The attributes of the `Score` built from `c2ScoreKwInst`. -/
def c2ScoreAttrsInst : List (String × Val) :=
  (hydrate scoreFields c2ScoreKwInst).toOption.getD []

/-- A `Score` input omitting the nested-record field `scoreBreakdown`. -/
def c10Kw : List (String × Val) :=
  [("scoreValue", .int 100), ("passed", .bool true), ("secondsSurvived", .int 60)]

/-- The attributes of the `Score` built from `c10Kw`. -/
def c10Attrs : List (String × Val) :=
  (hydrate scoreFields c10Kw).toOption.getD []

/-- A `ScoreBreakdown.__dict__` whose `misses` is `None`. -/
def c3Breakdown : List (String × Val) :=
  [("fantastics", .int 1), ("excellents", .int 2), ("greats", .int 3),
   ("decents", .int 4), ("wayoffs", .int 5), ("misses", Val.none),
   ("holds", .int 7), ("holdsTotal", .int 8), ("minesHit", .int 9),
   ("minesAvoided", .int 10), ("minesTotal", .int 11), ("rolls", .int 12),
   ("rollsTotal", .int 13), ("jumps", .int 14), ("jumpsTotal", .int 15),
   ("hands", .int 16), ("handsTotal", .int 17)]

/-- A player instance for submitting a score. -/
def c3Player : Val := .inst "Player" [("nickname", .str "p"), ("_id", .str "p1")]

/-- A fully populated `ChartUpload` instance whose breakdown has a `None`
`misses` entry. -/
def c3Upload : Val :=
  .inst "ChartUpload"
    [("hash", .str "h"), ("meter", .int 9), ("playMode", .str "Single"),
     ("stepData", .str "sd"), ("stepArtist", .str "sa"),
     ("song", .inst "Song"
       [("title", .str "t"), ("titleTransliteration", .str "tt"),
        ("subTitle", .str "st"), ("subTitleTransliteration", .str "stt"),
        ("artist", .str "ar"), ("artistTransliteration", .str "art"),
        ("durationSeconds", .int 120)]),
     ("score", .inst "Score"
       [("scoreBreakdown", .inst "ScoreBreakdown" c3Breakdown),
        ("scoreValue", .int 100), ("passed", .bool true),
        ("secondsSurvived", .int 60)]),
     ("group", .str "g"), ("cabSide", .str "left"), ("speedMod", .str "x2"),
     ("musicRate", .int 1), ("modsTurn", .str "none"),
     ("modsTransform", .str "none"), ("modsOther", .str "none"),
     ("noteSkin", .str "ns"), ("perspective", .str "pv"),
     ("timingWindows", .inst "TimingWindows"
       [("fantasticTimingWindow", .int 1), ("excellentTimingWindow", .int 2),
        ("greatTimingWindow", .int 3), ("decentTimingWindow", .int 4),
        ("wayoffTimingWindow", .int 5), ("mineTimingWindow", .int 6),
        ("holdTimingWindow", .int 7), ("rollTimingWindow", .int 8)]),
     ("inputEvents", .list []), ("noteScoresWithBeats", .list [])]

/-- The wire payload `post_score` builds for `c3Player` and `c3Upload`. -/
def c3Payload : List (String × Val) :=
  (post_score_payload (.str "KEY") c3Player c3Upload).toOption.getD []

/-- The top-level key set that the specification text predicts for a fully
populated upload: the fixed entries, the breakdown's field names, the
song's field names, and the upload's own field names whose values are not
nested records (`song`, `score` and `timingWindows` all excluded). -/
def claimedKeysC4 : List String :=
  ["apiKey", "playerId", "scoreValue", "passed", "secondsSurvived", "group",
   "fantastics", "excellents", "greats", "decents", "wayoffs", "misses",
   "holds", "holdsTotal", "minesHit", "minesAvoided", "minesTotal", "rolls",
   "rollsTotal", "jumps", "jumpsTotal", "hands", "handsTotal",
   "title", "titleTransliteration", "subTitle", "subTitleTransliteration",
   "artist", "artistTransliteration", "durationSeconds",
   "hash", "meter", "playMode", "stepData", "stepArtist", "cabSide",
   "speedMod", "musicRate", "modsTurn", "modsTransform", "modsOther",
   "noteSkin", "perspective", "inputEvents", "noteScoresWithBeats"]

/-- The wire payload `post_score` builds for a fully populated upload. -/
def c4Payload : List (String × Val) :=
  (post_score_payload (.str "K")
    (.inst "Player" (playerAttrsFull (fun k => .str k)))
    (.inst "ChartUpload" (uploadAttrsFull (fun k => .str k)))).toOption.getD []

/-- `dumpable` never turns a non-`None` value into `None`. -/
lemma isNone_dumpable (v : Val) : (dumpable v).isNone = v.isNone := by
  cases v <;> first
    | rfl
    | (simp only [dumpable]; split <;> rfl)

/-- Every entry of the final payload has a non-`None` value. -/
lemma mem_finalize (m : List (String × Val)) :
    ∀ kv ∈ finalize m, Val.isNone kv.2 = false := by
  intro kv h
  simp only [finalize, List.mem_map, List.mem_filter] at h
  obtain ⟨a, ⟨hmem, hfilt⟩, heq⟩ := h
  subst heq
  simpa [isNone_dumpable] using hfilt

/-- C3: for every player and upload for which `post_score` builds a
payload, no key of the wire payload has a `None` value: `None`-valued
entries of the flattened data are omitted entirely. -/
theorem claim_C3 (apiKey player upload : Val) (payload : List (String × Val))
    (h : post_score_payload apiKey player upload = .ok payload) :
    ∀ kv ∈ payload, Val.isNone kv.2 = false := by
  unfold post_score_payload at h
  simp only [bind, Except.bind, pure, Except.pure] at h
  repeat' split at h
  any_goals exact Except.noConfusion h
  injection h with h
  subst h
  exact mem_finalize _

/-- Keys of a concatenation. -/
lemma keysOf_append (m1 m2 : List (String × Val)) :
    keysOf (m1 ++ m2) = keysOf m1 ++ keysOf m2 := by simp [keysOf]

/-- The key-presence test of `updateAssoc` depends only on the keys. -/
lemma any_key_eq (m : List (String × Val)) (k : String) :
    (m.any (fun kv => kv.1 == k)) = (keysOf m).any (fun k2 => k2 == k) := by
  induction m with
  | nil => rfl
  | cons a t ih => simp [keysOf, List.any_cons, ih]

/-- Overwriting an existing key in place preserves the key list. -/
lemma keysOf_replace (m : List (String × Val)) (k : String) (v : Val) :
    keysOf (m.map (fun kv => if kv.1 == k then (k, v) else kv)) = keysOf m := by
  induction m with
  | nil => rfl
  | cons a t ih =>
    unfold keysOf at *
    simp only [List.map_cons]
    cases hak : (a.1 == k) with
    | false => simp only [hak, Bool.false_eq_true, if_false, ih]
    | true =>
      have ha : a.1 = k := beq_iff_eq.1 hak
      simp only [hak, if_true, ih]
      rw [ha]

/-- `updateAssoc` keeps the key list, appending the key only if new. -/
lemma keysOf_updateAssoc (m : List (String × Val)) (k : String) (v : Val) :
    keysOf (updateAssoc m k v) =
      if (keysOf m).any (fun k2 => k2 == k) then keysOf m else keysOf m ++ [k] := by
  unfold updateAssoc
  rw [any_key_eq]
  split
  · rw [keysOf_replace]
  · rw [keysOf_append]
    rfl

/-- An entry of `updateAssoc m k v` comes from `m` or is `(k, v)`. -/
lemma mem_updateAssoc {m : List (String × Val)} {k : String} {v : Val}
    {kv : String × Val} (h : kv ∈ updateAssoc m k v) : kv ∈ m ∨ kv = (k, v) := by
  unfold updateAssoc at h
  split at h
  · obtain ⟨a, ha, hEq⟩ := List.mem_map.1 h
    by_cases hak : (a.1 == k) = true
    · right
      rw [if_pos hak] at hEq
      exact hEq.symm
    · left
      rw [if_neg hak] at hEq
      rwa [← hEq]
  · rcases List.mem_append.1 h with h1 | h1
    · exact Or.inl h1
    · right
      simpa using h1

/-- The key list of `dict.update` folds the new keys over the old ones. -/
lemma keysOf_updateAll (m kvs : List (String × Val)) :
    keysOf (updateAll m kvs) =
      (keysOf kvs).foldl
        (fun ks k2 => if ks.any (fun k3 => k3 == k2) then ks else ks ++ [k2])
        (keysOf m) := by
  induction kvs generalizing m with
  | nil => rfl
  | cons a t ih =>
    show keysOf (updateAll (updateAssoc m a.1 a.2) t) = _
    rw [ih, keysOf_updateAssoc]
    rfl

/-- An entry of `updateAll m kvs` comes from `m` or from `kvs`. -/
lemma mem_updateAll {m kvs : List (String × Val)} {kv : String × Val}
    (h : kv ∈ updateAll m kvs) : kv ∈ m ∨ kv ∈ kvs := by
  induction kvs generalizing m with
  | nil => exact Or.inl h
  | cons a t ih =>
    have h2 : kv ∈ updateAll (updateAssoc m a.1 a.2) t := h
    rcases ih h2 with h3 | h3
    · rcases mem_updateAssoc h3 with h4 | h4
      · exact Or.inl h4
      · exact Or.inr (by simp [h4])
    · exact Or.inr (List.mem_cons_of_mem _ h3)

/-- If no value is `None`, the final payload keeps all keys. -/
lemma keysOf_finalize (m : List (String × Val))
    (h : ∀ kv ∈ m, kv.2.isNone = false) : keysOf (finalize m) = keysOf m := by
  unfold finalize
  have hf : m.filter (fun kv => !kv.2.isNone) = m := by
    apply List.filter_eq_self.2
    intro a ha
    simp [h a ha]
  rw [hf]
  simp [keysOf]

/-- A `Song` instance is a `FlattenedBase`. -/
lemma isFlattenedBase_song (a : List (String × Val)) :
    isFlattenedBase (.inst "Song" a) = true := rfl

/-- A `Score` instance is a `FlattenedBase`. -/
lemma isFlattenedBase_score (a : List (String × Val)) :
    isFlattenedBase (.inst "Score" a) = true := rfl

/-- A `TimingWindows` instance is not a `FlattenedBase` (its class derives
`Base` directly). -/
lemma isFlattenedBase_tw (a : List (String × Val)) :
    isFlattenedBase (.inst "TimingWindows" a) = false := rfl

/-- A list is not a `FlattenedBase`. -/
lemma isFlattenedBase_list (xs : List Val) :
    isFlattenedBase (.list xs) = false := rfl

set_option maxHeartbeats 1000000 in
/-- C4 (amended): for every upload fully populated with non-`None`
non-record values, the payload's top-level keys are exactly the fixed
set, the breakdown's fields, the song's fields, and the upload's own
fields whose values are not `FlattenedBase` instances — so `song` and
`score` are excluded but `timingWindows` is included; the colliding
`group` key is overwritten in place, not dropped. -/
theorem claim_C4_amended (vals : String → Val) (apiKey : Val)
    (hnn : ∀ k, (vals k).isNone = false)
    (hkey : apiKey.isNone = false)
    (hfb : ∀ k, isFlattenedBase (vals k) = false) :
    (post_score_payload apiKey (.inst "Player" (playerAttrsFull vals))
       (.inst "ChartUpload" (uploadAttrsFull vals))).map keysOf
      = .ok amendedKeysList := by
  unfold post_score_payload
  simp only [getAttr, instDict, asList, lookupKw, playerAttrsFull, playerFields,
    uploadAttrsFull, scoreAttrsFull, bdAttrsFull, songAttrsFull, twAttrsFull,
    scoreBreakdownFields, songFields, timingWindowsFields, List.map,
    bind, Except.bind, pure, Except.pure, List.mapM, List.mapM.loop,
    List.filter, hfb, isFlattenedBase_song, isFlattenedBase_score,
    isFlattenedBase_tw, isFlattenedBase_list, Bool.not_true, Bool.not_false,
    reduceIte, String.reduceEq, Except.map]
  refine congrArg Except.ok ?_
  rw [keysOf_finalize]
  · simp only [keysOf_updateAssoc, keysOf_updateAll]
    simp only [keysOf, List.map]
    decide
  · intro kv hkv
    rcases mem_updateAssoc hkv with hkv | rfl
    · rcases mem_updateAssoc hkv with hkv | rfl
      · rcases mem_updateAll hkv with hkv | hkv
        · rcases mem_updateAll hkv with hkv | hkv
          · rcases mem_updateAll hkv with hkv | hkv
            · simp only [List.mem_cons, List.not_mem_nil, or_false] at hkv
              rcases hkv with rfl | rfl | rfl | rfl | rfl | rfl <;>
                first | exact hkey | exact hnn _
            · simp only [List.mem_cons, List.not_mem_nil, or_false] at hkv
              rcases hkv with rfl | rfl | rfl | rfl | rfl | rfl | rfl | rfl | rfl |
                rfl | rfl | rfl | rfl | rfl | rfl | rfl | rfl <;> exact hnn _
          · simp only [List.mem_cons, List.not_mem_nil, or_false] at hkv
            rcases hkv with rfl | rfl | rfl | rfl | rfl | rfl | rfl <;> exact hnn _
        · simp only [List.mem_cons, List.not_mem_nil, or_false] at hkv
          rcases hkv with rfl | rfl | rfl | rfl | rfl | rfl | rfl | rfl | rfl |
            rfl | rfl | rfl | rfl | rfl | rfl | rfl | rfl <;>
            first | exact hnn _ | rfl
      · rfl
    · rfl

/-- Construction over an empty schema assigns nothing. -/
lemma hydrate_nil (kwargs : List (String × Val)) : hydrate [] kwargs = .ok [] := rfl

/-- One step of the `Base.__init__` loop. -/
lemma hydrate_cons (k : String) (c : FieldSpec) (rest : List (String × FieldSpec))
    (kwargs : List (String × Val)) :
    hydrate ((k, c) :: rest) kwargs =
      match hydrateOne k c (lookupKw kwargs k) with
      | .error e => .error e
      | .ok v2 =>
        match hydrate rest kwargs with
        | .error e => .error e
        | .ok attrs => .ok ((k, v2) :: attrs) := rfl

/-- An absent required field raises `TournamentApiError` naming it. -/
lemma hydrateOne_absent_required (k : String) :
    hydrateOne k .required Option.none = .error (.missingRequired k) := rfl

/-- An absent nested-record field gets the class object itself. -/
lemma hydrateOne_absent_record (k n : String) (fs : List (String × FieldSpec)) :
    hydrateOne k (.record n fs) Option.none = .ok (.cls n) := rfl

/-- A supplied non-dict value is assigned unchanged, for every spec. -/
lemma hydrateOne_some_nondict (k : String) (c : FieldSpec) (v : Val)
    (hv : v.isDict = false) : hydrateOne k c (some v) = .ok v := by
  cases c <;> cases v <;> first
    | rfl
    | exact absurd hv (by simp [Val.isDict])

/-- A dict supplied for a nested-record field is constructed recursively. -/
lemma hydrateOne_some_dict_record (k n : String) (fs : List (String × FieldSpec))
    (d : List (String × Val)) :
    hydrateOne k (.record n fs) (some (.dict d)) = (hydrate fs d).map (Val.inst n) := rfl

/-- C10: constructing a record whose input omits a nested-record field
succeeds, and the resulting attribute is the nested record class object
itself — not an instance and not a null value. -/
theorem claim_C10 (fields : List (String × FieldSpec)) (kwargs attrs : List (String × Val))
    (k n : String) (fs : List (String × FieldSpec))
    (hnodup : (fields.map Prod.fst).Nodup)
    (hmem : (k, FieldSpec.record n fs) ∈ fields)
    (habs : lookupKw kwargs k = Option.none)
    (hok : hydrate fields kwargs = .ok attrs) :
    lookupKw attrs k = some (Val.cls n) := by
  induction fields generalizing attrs with
  | nil => simp at hmem
  | cons hd rest ih =>
    obtain ⟨k2, c2⟩ := hd
    rw [List.map_cons] at hnodup
    obtain ⟨hnin, hnd2⟩ := List.nodup_cons.1 hnodup
    cases h1 : hydrateOne k2 c2 (lookupKw kwargs k2) with
    | error e => rw [hydrate_cons, h1] at hok; exact Except.noConfusion hok
    | ok v2 =>
      cases h2 : hydrate rest kwargs with
      | error e => rw [hydrate_cons, h1, h2] at hok; exact Except.noConfusion hok
      | ok attrs2 =>
        rw [hydrate_cons, h1, h2] at hok
        injection hok with hok
        subst hok
        rcases List.mem_cons.1 hmem with heq | hmem2
        · cases heq
          rw [habs, hydrateOne_absent_record] at h1
          injection h1 with h1
          simp [lookupKw, ← h1]
        · have hk : k2 ≠ k := by
            intro h
            subst h
            exact hnin (by simpa using List.mem_map_of_mem Prod.fst hmem2)
          simp only [lookupKw, if_neg hk]
          exact ih attrs2 hnd2 hmem2 h2

/-- A supplied value for a required-sentinel field is assigned unchanged
(the sentinel `None` is falsy, so no conversion is attempted). -/
lemma hydrateOne_required_some (k : String) (v : Val) :
    hydrateOne k .required (some v) = .ok v := by
  cases v <;> rfl

/-- An absent field with a default that is not a truthy mapping gets the
default. -/
lemma hydrateOne_absent_default (k : String) (dv : Val)
    (hd : (dv.truthy && dv.isDict) = false) :
    hydrateOne k (.default dv) Option.none = .ok dv := by
  cases dv with
  | dict d =>
    cases d with
    | nil => rfl
    | cons a t => exact absurd hd (by simp [Val.truthy, Val.isDict])
  | none => rfl
  | bool b => rfl
  | int n => rfl
  | str s => rfl
  | list xs => rfl
  | inst c a => rfl
  | cls n => rfl

/-- A dict supplied for a falsy default is assigned unchanged. -/
lemma hydrateOne_default_dict_falsy (k : String) (dv : Val)
    (d : List (String × Val)) (h : dv.truthy = false) :
    hydrateOne k (.default dv) (some (.dict d)) = .ok (.dict d) := by
  show (match Val.truthy dv with
        | true => Except.error PyError.typeError
        | false => Except.ok (Val.dict d)) = Except.ok (Val.dict d)
  rw [h]

/-- When no truthy-spec field is supplied a raw mapping and defaults are
not truthy mappings, a field whose required value is present is assigned
exactly the supplied value (or its default / class object when absent). -/
lemma hydrateOne_benign (k2 : String) (c2 : FieldSpec) (kwargs : List (String × Val))
    (hdef2 : ∀ v, c2 = FieldSpec.default v → (v.truthy && v.isDict) = false)
    (hnd2 : FieldSpec.truthy c2 = true → ∀ d, lookupKw kwargs k2 ≠ some (.dict d))
    (hreq2 : c2 = FieldSpec.required → lookupKw kwargs k2 ≠ Option.none) :
    ∃ v2, hydrateOne k2 c2 (lookupKw kwargs k2) = .ok v2 ∧
      ∀ w, lookupKw kwargs k2 = some w → v2 = w := by
  cases hl : lookupKw kwargs k2 with
  | none =>
    cases c2 with
    | required => exact absurd hl (hreq2 rfl)
    | default dv =>
      exact ⟨dv, hydrateOne_absent_default k2 dv (hdef2 dv rfl),
        fun w hw => Option.noConfusion hw⟩
    | record n fs =>
      exact ⟨.cls n, hydrateOne_absent_record k2 n fs,
        fun w hw => Option.noConfusion hw⟩
  | some w =>
    cases hw : w.isDict with
    | false =>
      exact ⟨w, hydrateOne_some_nondict k2 c2 w hw,
        fun w2 hw2 => Option.some.inj hw2⟩
    | true =>
      cases w with
      | dict d =>
        cases htr : FieldSpec.truthy c2 with
        | true => exact absurd hl (hnd2 htr d)
        | false =>
          cases c2 with
          | required =>
            exact ⟨.dict d, hydrateOne_required_some k2 (.dict d),
              fun w2 hw2 => Option.some.inj hw2⟩
          | default dv =>
            exact ⟨.dict d,
              hydrateOne_default_dict_falsy k2 dv d (by simpa [FieldSpec.truthy] using htr),
              fun w2 hw2 => Option.some.inj hw2⟩
          | record n fs => exact absurd htr (by simp [FieldSpec.truthy])
      | none => exact absurd hw (by simp [Val.isDict])
      | bool b => exact absurd hw (by simp [Val.isDict])
      | int n => exact absurd hw (by simp [Val.isDict])
      | str s => exact absurd hw (by simp [Val.isDict])
      | list xs => exact absurd hw (by simp [Val.isDict])
      | inst c a => exact absurd hw (by simp [Val.isDict])
      | cls n => exact absurd hw (by simp [Val.isDict])

/-- C1 (amended): over schemas whose defaults are not truthy mappings and
inputs that supply no raw mapping for a truthy-spec field: whenever some
required-sentinel field is absent, construction fails with an error
naming a missing required field; when every required field is supplied,
construction succeeds and each supplied field's attribute equals the
supplied value.  (Unrestricted, a raw mapping supplied for a
nested-record field can make construction fail even with all required
fields present, and is converted rather than assigned as-is.) -/
theorem claim_C1_amended (fields : List (String × FieldSpec)) (kwargs : List (String × Val))
    (hdef : ∀ k v, (k, FieldSpec.default v) ∈ fields → (v.truthy && v.isDict) = false)
    (hnd : ∀ k c, (k, c) ∈ fields → FieldSpec.truthy c = true →
       ∀ d, lookupKw kwargs k ≠ some (.dict d)) :
    ((∃ k, (k, FieldSpec.required) ∈ fields ∧ lookupKw kwargs k = Option.none) →
       ∃ k2, (k2, FieldSpec.required) ∈ fields ∧ lookupKw kwargs k2 = Option.none ∧
         hydrate fields kwargs = .error (.missingRequired k2)) ∧
    ((∀ k, (k, FieldSpec.required) ∈ fields → lookupKw kwargs k ≠ Option.none) →
       ∃ attrs, hydrate fields kwargs = .ok attrs ∧
         ∀ k c v, (k, c) ∈ fields → lookupKw kwargs k = some v →
           lookupKw attrs k = some v) := by
  induction fields with
  | nil =>
    constructor
    · rintro ⟨k, hk, -⟩
      simp at hk
    · intro _
      exact ⟨[], rfl, fun k c v hm => absurd hm (by simp)⟩
  | cons hd rest ih =>
    obtain ⟨k2, c2⟩ := hd
    have hdef2 : ∀ k v, (k, FieldSpec.default v) ∈ rest → (v.truthy && v.isDict) = false :=
      fun k v hm => hdef k v (List.mem_cons_of_mem _ hm)
    have hnd2 : ∀ k c, (k, c) ∈ rest → FieldSpec.truthy c = true →
        ∀ d, lookupKw kwargs k ≠ some (.dict d) :=
      fun k c hm => hnd k c (List.mem_cons_of_mem _ hm)
    obtain ⟨ihA, ihB⟩ := ih hdef2 hnd2
    constructor
    · rintro ⟨k, hkmem, hkabs⟩
      by_cases hhead : c2 = FieldSpec.required ∧ lookupKw kwargs k2 = Option.none
      · obtain ⟨rfl, habs2⟩ := hhead
        exact ⟨k2, List.mem_cons_self _ _, habs2,
          by rw [hydrate_cons, habs2, hydrateOne_absent_required]⟩
      · have hmem2 : (k, FieldSpec.required) ∈ rest := by
          rcases List.mem_cons.1 hkmem with heq | h
          · cases heq
            exact absurd ⟨rfl, hkabs⟩ hhead
          · exact h
        obtain ⟨v2, hv2, -⟩ := hydrateOne_benign k2 c2 kwargs
          (fun v hv => hdef k2 v (hv ▸ List.mem_cons_self _ _))
          (hnd k2 c2 (List.mem_cons_self _ _))
          (fun hc2 => by
            intro habs2
            exact hhead ⟨hc2, habs2⟩)
        obtain ⟨k3, hm3, ha3, he3⟩ := ihA ⟨k, hmem2, hkabs⟩
        exact ⟨k3, List.mem_cons_of_mem _ hm3, ha3,
          by rw [hydrate_cons, hv2, he3]⟩
    · intro hreq
      obtain ⟨v2, hv2, hpres⟩ := hydrateOne_benign k2 c2 kwargs
        (fun v hv => hdef k2 v (hv ▸ List.mem_cons_self _ _))
        (hnd k2 c2 (List.mem_cons_self _ _))
        (fun hc2 => hreq k2 (hc2 ▸ List.mem_cons_self _ _))
      obtain ⟨attrs2, hok2, hpres2⟩ := ihB
        (fun k hm => hreq k (List.mem_cons_of_mem _ hm))
      refine ⟨(k2, v2) :: attrs2, by rw [hydrate_cons, hv2, hok2], ?_⟩
      intro k c v hm hkv
      by_cases hkk : k2 = k
      · subst hkk
        rw [hpres v hkv]
        simp [lookupKw]
      · simp only [lookupKw, if_neg hkk]
        rcases List.mem_cons.1 hm with heq | hm2
        · cases heq
          exact absurd rfl hkk
        · exact hpres2 k c v hm2 hkv

/-- In a constructed record, the attribute of a nested-record field is
never a raw mapping. -/
lemma hydrate_record_not_dict (fields : List (String × FieldSpec))
    (kwargs attrs : List (String × Val)) (k n : String)
    (fs : List (String × FieldSpec))
    (hnodup : (fields.map Prod.fst).Nodup)
    (hmem : (k, FieldSpec.record n fs) ∈ fields)
    (hok : hydrate fields kwargs = .ok attrs) :
    ∀ d2, lookupKw attrs k ≠ some (.dict d2) := by
  induction fields generalizing attrs with
  | nil => simp at hmem
  | cons hd rest ih =>
    obtain ⟨k2, c2⟩ := hd
    rw [List.map_cons] at hnodup
    obtain ⟨hnin, hnd2⟩ := List.nodup_cons.1 hnodup
    cases h1 : hydrateOne k2 c2 (lookupKw kwargs k2) with
    | error e => rw [hydrate_cons, h1] at hok; exact Except.noConfusion hok
    | ok v2 =>
      cases h2 : hydrate rest kwargs with
      | error e => rw [hydrate_cons, h1, h2] at hok; exact Except.noConfusion hok
      | ok attrs2 =>
        rw [hydrate_cons, h1, h2] at hok
        injection hok with hok
        subst hok
        rcases List.mem_cons.1 hmem with heq | hmem2
        · cases heq
          intro d2
          simp only [lookupKw, if_pos rfl]
          intro hv2
          injection hv2 with hv2
          subst hv2
          cases hl : lookupKw kwargs k with
          | none =>
            rw [hl, hydrateOne_absent_record] at h1
            exact Val.noConfusion (Except.ok.inj h1)
          | some w =>
            cases w with
            | dict d =>
              rw [hl, hydrateOne_some_dict_record] at h1
              cases h3 : hydrate fs d with
              | error e => rw [h3] at h1; exact Except.noConfusion h1
              | ok a2 =>
                rw [h3] at h1
                exact Val.noConfusion (Except.ok.inj h1)
            | none =>
              rw [hl, hydrateOne_some_nondict k (.record n fs) Val.none rfl] at h1
              exact Val.noConfusion (Except.ok.inj h1)
            | bool b =>
              rw [hl, hydrateOne_some_nondict k (.record n fs) (.bool b) rfl] at h1
              exact Val.noConfusion (Except.ok.inj h1)
            | int m =>
              rw [hl, hydrateOne_some_nondict k (.record n fs) (.int m) rfl] at h1
              exact Val.noConfusion (Except.ok.inj h1)
            | str s =>
              rw [hl, hydrateOne_some_nondict k (.record n fs) (.str s) rfl] at h1
              exact Val.noConfusion (Except.ok.inj h1)
            | list xs =>
              rw [hl, hydrateOne_some_nondict k (.record n fs) (.list xs) rfl] at h1
              exact Val.noConfusion (Except.ok.inj h1)
            | inst c a =>
              rw [hl, hydrateOne_some_nondict k (.record n fs) (.inst c a) rfl] at h1
              exact Val.noConfusion (Except.ok.inj h1)
            | cls m =>
              rw [hl, hydrateOne_some_nondict k (.record n fs) (.cls m) rfl] at h1
              exact Val.noConfusion (Except.ok.inj h1)
        · have hk : k2 ≠ k := by
            intro h
            subst h
            exact hnin (by simpa using List.mem_map_of_mem Prod.fst hmem2)
          intro d2
          simp only [lookupKw, if_neg hk]
          exact ih attrs2 hnd2 hmem2 h2 d2

/-- C2: for every constructed record with a nested-record field: a raw
mapping supplied for it is hydrated into an instance of the nested type
(recursively, so none of the nested type's record fields is left a raw
mapping), and an already-constructed instance is assigned unchanged. -/
theorem claim_C2 (fields : List (String × FieldSpec)) (kwargs attrs : List (String × Val))
    (k n : String) (fs : List (String × FieldSpec))
    (hnodup : (fields.map Prod.fst).Nodup)
    (hmem : (k, FieldSpec.record n fs) ∈ fields)
    (hok : hydrate fields kwargs = .ok attrs) :
    (∀ d, lookupKw kwargs k = some (.dict d) →
       ∃ attrs2, hydrate fs d = .ok attrs2 ∧
         lookupKw attrs k = some (.inst n attrs2) ∧
         ((fs.map Prod.fst).Nodup →
           ∀ k2 n2 fs2, (k2, FieldSpec.record n2 fs2) ∈ fs →
             ∀ d2, lookupKw attrs2 k2 ≠ some (.dict d2))) ∧
    (∀ i a, lookupKw kwargs k = some (.inst i a) →
       lookupKw attrs k = some (.inst i a)) := by
  induction fields generalizing attrs with
  | nil => simp at hmem
  | cons hd rest ih =>
    obtain ⟨k2, c2⟩ := hd
    rw [List.map_cons] at hnodup
    obtain ⟨hnin, hnd2⟩ := List.nodup_cons.1 hnodup
    cases h1 : hydrateOne k2 c2 (lookupKw kwargs k2) with
    | error e => rw [hydrate_cons, h1] at hok; exact Except.noConfusion hok
    | ok v2 =>
      cases h2 : hydrate rest kwargs with
      | error e => rw [hydrate_cons, h1, h2] at hok; exact Except.noConfusion hok
      | ok attrs2 =>
        rw [hydrate_cons, h1, h2] at hok
        injection hok with hok
        subst hok
        rcases List.mem_cons.1 hmem with heq | hmem2
        · cases heq
          constructor
          · intro d hd
            rw [hd, hydrateOne_some_dict_record] at h1
            cases h3 : hydrate fs d with
            | error e => rw [h3] at h1; exact Except.noConfusion h1
            | ok a2 =>
              rw [h3] at h1
              injection h1 with h1
              refine ⟨a2, rfl, by simp [lookupKw, ← h1], ?_⟩
              intro hnd3 k2 n2 fs2 hm2 d2
              exact hydrate_record_not_dict fs d a2 k2 n2 fs2 hnd3 hm2 h3 d2
          · intro i a hia
            rw [hia, hydrateOne_some_nondict k (.record n fs) (.inst i a) rfl] at h1
            injection h1 with h1
            simp [lookupKw, ← h1]
        · have hk : k2 ≠ k := by
            intro h
            subst h
            exact hnin (by simpa using List.mem_map_of_mem Prod.fst hmem2)
          obtain ⟨ih1, ih2⟩ := ih attrs2 hnd2 hmem2 h2
          constructor
          · intro d hd
            obtain ⟨a2, h3, h4, h5⟩ := ih1 d hd
            exact ⟨a2, h3, by simpa [lookupKw, if_neg hk] using h4, h5⟩
          · intro i a hia
            simpa [lookupKw, if_neg hk] using ih2 i a hia

/-- Each fetch contributes at most one page of at most 10 documents. -/
lemma scoreLoop_scores_le (b : Nat → List Nat) (hlim : ∀ o, (b o).length ≤ 10) :
    ∀ n s, 101 ≤ s + n →
      (scoreHistoryLoop b s).1.length ≤ (scoreHistoryLoop b s).2.length * 10 := by
  intro n
  induction n with
  | zero =>
    intro s h1
    by_cases hemp : (b s).isEmpty
    · rw [scoreHistoryLoop, if_pos hemp]
      simp
    · rw [scoreHistoryLoop, if_neg hemp, if_pos (by omega : s + 10 > 100)]
      simpa using hlim s
  | succ n ih =>
    intro s h1
    by_cases hemp : (b s).isEmpty
    · rw [scoreHistoryLoop, if_pos hemp]
      simp
    · by_cases hgt : s + 10 > 100
      · rw [scoreHistoryLoop, if_neg hemp, if_pos hgt]
        simpa using hlim s
      · rw [scoreHistoryLoop, if_neg hemp, if_neg hgt]
        simp only [List.length_append, List.length_cons]
        have h2 := ih (s + 10) (by omega)
        have h3 := hlim s
        omega

/-- Against a backend that never returns an empty page, the loop fetches
exactly the offsets 0, 10, ..., 100. -/
lemma scoreLoop_never_empty_offsets (b : Nat → List Nat) (hne : ∀ o, b o ≠ []) :
    (scoreHistoryLoop b 0).2 = [0, 10, 20, 30, 40, 50, 60, 70, 80, 90, 100] := by
  have hne2 : ∀ o, (b o).isEmpty = false := by
    intro o
    cases hb : b o with
    | nil => exact absurd hb (hne o)
    | cons a t => rfl
  have h2 : ∀ s, s + 10 ≤ 100 →
      (scoreHistoryLoop b s).2 = s :: (scoreHistoryLoop b (s + 10)).2 := by
    intro s hs
    rw [scoreHistoryLoop, if_neg (by simp [hne2 s]), if_neg (by omega : ¬ s + 10 > 100)]
  have hlast : (scoreHistoryLoop b 100).2 = [100] := by
    rw [scoreHistoryLoop, if_neg (by simp [hne2 100]), if_pos (by omega : (100 : Nat) + 10 > 100)]
  rw [h2 0 (by omega)]
  norm_num
  rw [h2 10 (by omega)]
  norm_num
  rw [h2 20 (by omega)]
  norm_num
  rw [h2 30 (by omega)]
  norm_num
  rw [h2 40 (by omega)]
  norm_num
  rw [h2 50 (by omega)]
  norm_num
  rw [h2 60 (by omega)]
  norm_num
  rw [h2 70 (by omega)]
  norm_num
  rw [h2 80 (by omega)]
  norm_num
  rw [h2 90 (by omega)]
  norm_num
  rw [hlast]

/-- C5: for every backend whose pages are never empty and respect the
page size 10, the loop fetches exactly offsets 0, 10, ..., 100 — never
an offset above 100 — and accumulates at most 110 documents. -/
theorem claim_C5 (backend : Nat → List Nat)
    (hne : ∀ o, backend o ≠ [])
    (hlim : ∀ o, (backend o).length ≤ 10) :
    (scoreHistoryLoop backend 0).2 = [0, 10, 20, 30, 40, 50, 60, 70, 80, 90, 100] ∧
    (∀ o ∈ (scoreHistoryLoop backend 0).2, o ≤ 100) ∧
    (scoreHistoryLoop backend 0).1.length ≤ 110 := by
  have hoff := scoreLoop_never_empty_offsets backend hne
  refine ⟨hoff, ?_, ?_⟩
  · intro o ho
    rw [hoff] at ho
    simp at ho
    omega
  · have h1 := scoreLoop_scores_le backend hlim 101 0 (by omega)
    rw [hoff] at h1
    simpa using h1

/-- Against the 35-document backend the loop accumulates all 35 documents
and fetches offsets 0, 10, 20, 30 and 40 (the final fetch returns the
empty page that stops the loop). -/
lemma scoreLoop_backend35_eq :
    scoreHistoryLoop backend35 0 = (List.range 35, [0, 10, 20, 30, 40]) := by
  rw [scoreHistoryLoop]
  norm_num [backend35]
  rw [scoreHistoryLoop]
  norm_num [backend35]
  rw [scoreHistoryLoop]
  norm_num [backend35]
  rw [scoreHistoryLoop]
  norm_num [backend35]
  rw [scoreHistoryLoop]
  norm_num [backend35]
  decide

/-- C6 (amended): against a backend holding exactly 35 documents in pages
of 10, the loop accumulates exactly 35 documents but issues five fetches,
at offsets 0, 10, 20, 30 and 40: the short fourth page does not stop the
loop, which stops only on the empty fifth page. -/
theorem claim_C6_amended :
    (scoreHistoryLoop backend35 0).1.length = 35 ∧
    (scoreHistoryLoop backend35 0).2 = [0, 10, 20, 30, 40] := by
  rw [scoreLoop_backend35_eq]
  exact ⟨by decide, rfl⟩

/-- C6 counterexample: against the 35-document backend the loop issues 5
fetches, not 4, and the fetched offsets are not `[0, 10, 20, 30]`. -/
theorem claim_C6_counterexample :
    (scoreHistoryLoop backend35 0).1.length = 35 ∧
    (scoreHistoryLoop backend35 0).2.length = 5 ∧
    (scoreHistoryLoop backend35 0).2 ≠ [0, 10, 20, 30] := by
  rw [scoreLoop_backend35_eq]
  exact ⟨by decide, rfl, by decide⟩

/-- C5 witness: the bound realized against a backend that always returns
a full page. -/
theorem claim_C5_witness :
    (scoreHistoryLoop (fun _ => [1, 2, 3, 4, 5, 6, 7, 8, 9, 10]) 0).2 =
      [0, 10, 20, 30, 40, 50, 60, 70, 80, 90, 100] ∧
    (∀ o ∈ (scoreHistoryLoop (fun _ => [1, 2, 3, 4, 5, 6, 7, 8, 9, 10]) 0).2, o ≤ 100) ∧
    (scoreHistoryLoop (fun _ => [1, 2, 3, 4, 5, 6, 7, 8, 9, 10]) 0).1.length ≤ 110 :=
  claim_C5 (fun _ => [1, 2, 3, 4, 5, 6, 7, 8, 9, 10])
    (fun _ => by simp) (fun _ => by simp)

/-- C1 counterexample: a `Score` input supplying every required field but
an empty mapping for `scoreBreakdown` makes construction fail — with an
error naming `fantastics`, a field of the nested schema — refuting that
supplying all required fields makes construction succeed. -/
theorem claim_C1_counterexample :
    (∀ k, (k, FieldSpec.required) ∈ scoreFields → lookupKw c1Kw k ≠ Option.none) ∧
    hydrate scoreFields c1Kw = .error (.missingRequired "fantastics") := by
  constructor
  · intro k hm
    simp [scoreFields, scoreBreakdownFields] at hm
    rcases hm with rfl | rfl | rfl <;> simp [c1Kw, lookupKw]
  · rfl

/-- C1 witness: a `Player` constructed from its two required fields, with
the `nickname` attribute equal to the supplied value. -/
theorem claim_C1_witness :
    ∃ attrs, hydrate playerFields [("nickname", .str "a"), ("_id", .str "b")] = .ok attrs ∧
      lookupKw attrs "nickname" = some (.str "a") := by
  have h := (claim_C1_amended playerFields [("nickname", .str "a"), ("_id", .str "b")]
    (by
      intro k v hm
      simp [playerFields] at hm
      rcases hm with ⟨rfl, rfl⟩ | ⟨rfl, rfl⟩ | ⟨rfl, rfl⟩ | ⟨rfl, rfl⟩ | ⟨rfl, rfl⟩ <;> rfl)
    (by
      intro k c hm htr d hld
      simp [playerFields] at hm
      rcases hm with ⟨rfl, rfl⟩ | ⟨rfl, rfl⟩ | ⟨rfl, rfl⟩ | ⟨rfl, rfl⟩ | ⟨rfl, rfl⟩ |
        ⟨rfl, rfl⟩ | ⟨rfl, rfl⟩ <;> simp [lookupKw] at hld)).2
  obtain ⟨attrs, h1, h2⟩ := h (by
    intro k hm
    simp [playerFields] at hm
    rcases hm with rfl | rfl <;> simp [lookupKw])
  exact ⟨attrs, h1, h2 "nickname" .required (.str "a") (by simp [playerFields]) rfl⟩

/-- C7: the code evaluated at the failing input — supplying a raw mapping
for `metaData`, whose default is the truthy string `"{}"`, makes
`Base.__init__` call the string (`val = c(**val)`) and raise `TypeError`
instead of assigning the mapping as-is; a non-dict supplied value is
assigned unconverted. -/
theorem claim_C7_bug :
    hydrate playerFields
      [("nickname", .str "a"), ("_id", .str "b"),
       ("metaData", .dict [("x", .int 1)])] = .error PyError.typeError ∧
    (hydrate playerFields
      [("nickname", .str "a"), ("_id", .str "b"),
       ("metaData", .str "mm")]).map (fun a => lookupKw a "metaData") =
      .ok (some (.str "mm")) :=
  ⟨rfl, rfl⟩

/-- C8 (amended): `getMeta` returns the stored value for a present key
and a null result for an absent key or a `None` `metaData`, and does not
raise — provided `metaData` is `None` or a string that parses as a JSON
object; on a string that does not parse, `json.loads` raises. -/
theorem claim_C8_amended (s field : String) (d : List (String × Val)) :
    getMeta Val.none field = .ok Val.none ∧
    (jsonLoads s = some d →
      (∀ v, lookupKw d field = some v → getMeta (.str s) field = .ok v) ∧
      (lookupKw d field = Option.none → getMeta (.str s) field = .ok Val.none)) ∧
    (jsonLoads s = Option.none → getMeta (.str s) field = .error .jsonError) := by
  refine ⟨rfl, ?_, ?_⟩
  · intro hj
    constructor
    · intro v hv
      simp [getMeta, Val.isNone, hj, hv]
    · intro hv
      simp [getMeta, Val.isNone, hj, hv]
  · intro hj
    simp [getMeta, Val.isNone, hj]

/-- C8 counterexample: a constructible `Player` whose `metaData` is the
empty string makes `getMeta` raise a JSON decode error, refuting that
`getMeta` never raises for every value of `metaData`. -/
theorem claim_C8_counterexample :
    hydrate playerFields
      [("nickname", .str "a"), ("_id", .str "b"), ("metaData", .str "")] =
      .ok [("nickname", .str "a"), ("shortNickname", .str ""),
           ("avatarIconUrl", .str ""), ("rfidUid", .str ""),
           ("_id", .str "b"), ("metaData", .str ""),
           ("mountType", .bool false)] ∧
    getMeta (.str "") "x" = .error .jsonError :=
  ⟨rfl, rfl⟩

/-- C8 witness: `getMeta` on a null `metaData`, a present key and an
absent key. -/
theorem claim_C8_witness :
    getMeta Val.none "a" = .ok Val.none ∧
    getMeta (.str "\x7b\"a\": 1\x7d") "a" = .ok (.int 1) ∧
    getMeta (.str "\x7b\"a\": 1\x7d") "b" = .ok Val.none :=
  ⟨(claim_C8_amended "\x7b\"a\": 1\x7d" "a" [("a", .int 1)]).1,
   ((claim_C8_amended "\x7b\"a\": 1\x7d" "a" [("a", .int 1)]).2.1 rfl).1 (.int 1) rfl,
   ((claim_C8_amended "\x7b\"a\": 1\x7d" "b" [("a", .int 1)]).2.1 rfl).2 rfl⟩

/-- C9: `get_player` returns a null result when the response has no data
or when the number of matching documents differs from one (ambiguity is
not an error and not a list), and returns the single hydrated `Player`
exactly when one document matches. -/
theorem claim_C9 (resp : List (String × Val)) :
    (lookupKw resp "data" = Option.none → get_player_resolve resp = .ok Option.none) ∧
    (∀ dd pd l, lookupKw resp "data" = some (.dict dd) →
       lookupKw dd "Players" = some (.dict pd) →
       lookupKw pd "docs" = some (.list l) →
       ((l.length ≠ 1 → get_player_resolve resp = .ok Option.none) ∧
        (∀ doc attrs, l = [Val.dict doc] → hydrate playerFields doc = .ok attrs →
           get_player_resolve resp = .ok (some (.inst "Player" attrs))))) := by
  constructor
  · intro h
    simp [get_player_resolve, h]
  · intro dd pd l hdata hpl hdocs
    have htr : Val.truthy (.dict pd) = true := by
      cases pd with
      | nil => simp [lookupKw] at hdocs
      | cons a t => rfl
    constructor
    · intro hlen
      simp [get_player_resolve, hdata, hpl, hdocs, htr, hlen]
    · intro doc attrs hl hhyd
      subst hl
      simp [get_player_resolve, hdata, hpl, hdocs, htr, hhyd, Except.map]

/-- C9 witness: a response without data, one with two documents, and one
with a single document hydrated into a `Player`. -/
theorem claim_C9_witness :
    get_player_resolve [] = .ok Option.none ∧
    get_player_resolve c9RespTwo = .ok Option.none ∧
    get_player_resolve c9Resp =
      .ok (some (.inst "Player"
        [("nickname", .str "n"), ("shortNickname", .str ""),
         ("avatarIconUrl", .str ""), ("rfidUid", .str ""),
         ("_id", .str "i"), ("metaData", .str "\x7b\x7d"),
         ("mountType", .bool false)])) :=
  ⟨(claim_C9 []).1 rfl,
   ((claim_C9 c9RespTwo).2 _ _ _ rfl rfl rfl).1 (by decide),
   ((claim_C9 c9Resp).2 _ _ _ rfl rfl rfl).2 c9Doc _ rfl rfl⟩

/-- C2 witness: a `Score` built with a raw-mapping breakdown carries a
`ScoreBreakdown` instance, and one built with an instance keeps it. -/
theorem claim_C2_witness :
    (∃ attrs2, hydrate scoreBreakdownFields bdKwInts = .ok attrs2 ∧
       lookupKw c2ScoreAttrs "scoreBreakdown" = some (.inst "ScoreBreakdown" attrs2)) ∧
    lookupKw c2ScoreAttrsInst "scoreBreakdown" =
      some (.inst "ScoreBreakdown" bdKwInts) := by
  constructor
  · obtain ⟨a2, h1, h2, -⟩ :=
      (claim_C2 scoreFields c2ScoreKw c2ScoreAttrs "scoreBreakdown" "ScoreBreakdown"
        scoreBreakdownFields (by decide) (by simp [scoreFields]) rfl).1 bdKwInts rfl
    exact ⟨a2, h1, h2⟩
  · exact (claim_C2 scoreFields c2ScoreKwInst c2ScoreAttrsInst "scoreBreakdown"
      "ScoreBreakdown" scoreBreakdownFields (by decide) (by simp [scoreFields])
      rfl).2 "ScoreBreakdown" bdKwInts rfl

/-- C10 witness: a `Score` built without `scoreBreakdown` carries the
`ScoreBreakdown` class object as that attribute. -/
theorem claim_C10_witness :
    hydrate scoreFields c10Kw = .ok c10Attrs ∧
    lookupKw c10Attrs "scoreBreakdown" = some (.cls "ScoreBreakdown") :=
  ⟨rfl, claim_C10 scoreFields c10Kw c10Attrs "scoreBreakdown" "ScoreBreakdown"
    scoreBreakdownFields (by decide) (by simp [scoreFields]) rfl rfl⟩

set_option maxRecDepth 4000 in
/-- C3 witness: a concrete upload whose `scoreBreakdown.misses` is `None`
produces a payload without the `misses` key and with no `None` values. -/
theorem claim_C3_witness :
    (∀ kv ∈ c3Payload, Val.isNone kv.2 = false) ∧
    "misses" ∉ keysOf c3Payload ∧
    "fantastics" ∈ keysOf c3Payload :=
  ⟨claim_C3 (.str "KEY") c3Player c3Upload c3Payload rfl,
   by decide, by decide⟩

set_option maxRecDepth 4000 in
/-- C4 counterexample: for a fully populated upload the payload contains
the key `timingWindows`, which the claimed key set (breakdown fields,
song fields, and upload fields that are not nested records) excludes, so
the claimed equality fails. -/
theorem claim_C4_counterexample :
    "timingWindows" ∈ keysOf c4Payload ∧ "timingWindows" ∉ claimedKeysC4 := by
  constructor
  · decide
  · decide

/-- C4 witness: the amended key list realized on a concrete fully
populated upload. -/
theorem claim_C4_witness :
    (post_score_payload (.str "K")
      (.inst "Player" (playerAttrsFull (fun k => .str k)))
      (.inst "ChartUpload" (uploadAttrsFull (fun k => .str k)))).map keysOf
      = .ok amendedKeysList :=
  claim_C4_amended (fun k => .str k) (.str "K") (fun _ => rfl) rfl (fun _ => rfl)

end Padmiss
